import Mathlib

/-!
Shallow embedding of `src/terribleconsolegui.py` (a minimal terminal-UI
toolkit): the key-decoding table, the widget/counter/cyclic-list state
model, exclusive selection groups, and the `ElementList` navigation and
input loop (`key_presses`).

Terminal rendering (`print_pos`, `update`) is pure output with no feedback
into program state, so the positions `x`/`y`, the displayed `text`, and
the `align`/`padding` render options are not modeled; every state-bearing
field and every state transition of the Python source is. Python's
unbounded `int` is `Int`; the `math.inf` float that may appear in a
counter's `bounds` tuple is modeled by the extended type `EInt`
(`float('inf') + 1 = float('inf')`, and an `int` never equals `inf`,
which `eincr`/`edecr` and decidable equality on `EInt` reproduce).
-/

/-- Extended integers: the values a `GUICounter.count` or bound can hold in
the Python source (`int`, or the floats `-inf`/`inf` from `math.inf`). -/
inductive EInt where
  | negInf : EInt
  | fin (z : Int) : EInt
  | posInf : EInt
deriving DecidableEq, Repr

/-- Python `+ 1` on an `EInt` value (`float('-inf') + 1 = float('-inf')`). -/
def eincr : EInt → EInt
  | .negInf => .negInf
  | .fin z => .fin (z + 1)
  | .posInf => .posInf

/-- Python `- 1` on an `EInt` value. -/
def edecr : EInt → EInt
  | .negInf => .negInf
  | .fin z => .fin (z - 1)
  | .posInf => .posInf

/-- `colorama.Fore.RESET` (ANSI code string). -/
def ForeRESET : String := "\x1b[39m"

/-- `colorama.Back.GREEN` (ANSI code string). -/
def BackGREEN : String := "\x1b[42m"

/-- `colorama.Back.RESET` (ANSI code string). -/
def BackRESET : String := "\x1b[49m"

/-- The state of a `GUIElement`: selection flag and the four style fields.
(`text`, `x`, `y` feed only the terminal renderer and are not modeled;
`exclusive_to` is modeled at the `ElementList` level, where the source
assigns it.) -/
structure GUIElement where
  selected : Bool
  sel_fore : String
  sel_back : String
  unsel_fore : String
  unsel_back : String
deriving DecidableEq, Repr

/-- `GUIElement.__init__`: stores the given styles and selection flag. -/
def mkGUIElement (sel_fore sel_back unsel_fore unsel_back : String)
    (selected : Bool) : GUIElement :=
  { selected := selected, sel_fore := sel_fore, sel_back := sel_back,
    unsel_fore := unsel_fore, unsel_back := unsel_back }

/-- The state of a `GUICounter` (Python inheritance from `GUIElement`
flattened into one structure). -/
structure GUICounter where
  selected : Bool
  sel_fore : String
  sel_back : String
  unsel_fore : String
  unsel_back : String
  count : EInt
  aux_count : EInt
  bounds : EInt × EInt
  aux_bounds : EInt × EInt
  wrap_bounds : Bool
deriving DecidableEq, Repr

/-- `GUICounter.__init__`: the style and `selected` arguments are accepted
but the call to `GUIElement.__init__` passes the literals
`Fore.RESET, Back.GREEN, Fore.RESET, Back.RESET` and omits `selected`
(so it defaults to `False`); `count`/`aux_count` start at
`default`/`default_aux`. -/
def mkGUICounter (sel_fore sel_back unsel_fore unsel_back : String)
    (selected : Bool) (default : Int) (default_aux : Int)
    (bounds : EInt × EInt) (aux_bounds : EInt × EInt)
    (wrap_bounds : Bool) : GUICounter :=
  { selected := false, sel_fore := ForeRESET, sel_back := BackGREEN,
    unsel_fore := ForeRESET, unsel_back := BackRESET,
    count := .fin default, aux_count := .fin default_aux,
    bounds := bounds, aux_bounds := aux_bounds, wrap_bounds := wrap_bounds }

/-- `GUICounter.increase`: `if not self.count == self.bounds[1]:
self.count += 1; elif self.wrap_bounds: self.count = self.bounds[0]`. -/
def GUICounter.increase (c : GUICounter) : GUICounter :=
  if c.count ≠ c.bounds.2 then { c with count := eincr c.count }
  else if c.wrap_bounds then { c with count := c.bounds.1 }
  else c

/-- `GUICounter.decrease`: symmetric at the lower bound. -/
def GUICounter.decrease (c : GUICounter) : GUICounter :=
  if c.count ≠ c.bounds.1 then { c with count := edecr c.count }
  else if c.wrap_bounds then { c with count := c.bounds.2 }
  else c

/-- `GUICounter.aux_increase`: the guard reads `self.count` (not
`self.aux_count`) against `self.aux_bounds[1]`, and the wrap branch
assigns into `self.count`. -/
def GUICounter.aux_increase (c : GUICounter) : GUICounter :=
  if c.count ≠ c.aux_bounds.2 then { c with aux_count := eincr c.aux_count }
  else if c.wrap_bounds then { c with count := c.aux_bounds.1 }
  else c

/-- `GUICounter.aux_decrease`: same asymmetry at the aux lower bound. -/
def GUICounter.aux_decrease (c : GUICounter) : GUICounter :=
  if c.count ≠ c.aux_bounds.1 then { c with aux_count := edecr c.aux_count }
  else if c.wrap_bounds then { c with count := c.aux_bounds.2 }
  else c

/-- One call in a sequence of `increase()`/`decrease()` calls. -/
inductive CounterOp where
  | inc : CounterOp
  | dec : CounterOp
deriving DecidableEq, Repr

/-- Apply a sequence of `increase()`/`decrease()` calls to a `GUICounter`. -/
def applyCounterOps (ops : List CounterOp) (c : GUICounter) : GUICounter :=
  match ops with
  | [] => c
  | .inc :: rest => applyCounterOps rest c.increase
  | .dec :: rest => applyCounterOps rest c.decrease

/-- The state of a `GUIHiddenList` (Python inheritance from `GUICounter`
flattened; the inherited fields are initialized by the `super().__init__`
chain, which hard-codes the styles and leaves `count = 0`). -/
structure GUIHiddenList where
  selected : Bool
  sel_fore : String
  sel_back : String
  unsel_fore : String
  unsel_back : String
  count : EInt
  aux_count : EInt
  bounds : EInt × EInt
  aux_bounds : EInt × EInt
  wrap_bounds : Bool
  items : List String
  wrap : Bool
  max_width : Nat
deriving DecidableEq, Repr

/-- `GUIHiddenList.__init__`: the style and `selected` arguments are
accepted but dropped — the `super().__init__` call shifts its positional
arguments (`items[0]` lands in `GUICounter`'s `x`, the truthy string
`Back.RESET` in its `selected`), and `GUICounter.__init__` in turn passes
hard-coded styles and no `selected` to `GUIElement.__init__`, so the
widget ends unselected with the default styles; `count` starts at the
`default` of 0, `bounds` at `(-inf, inf)`, `wrap_bounds` at `True`.
`max_width` defaults to the longest item's length (Python `max`, which
raises on an empty `items`; modeled as 0 there — `max_width` feeds only
`clear`'s blank width, which has no state effect). -/
def mkGUIHiddenList (items : List String)
    (sel_fore sel_back unsel_fore unsel_back : String) (selected : Bool)
    (max_width : Option Nat) (wrap : Bool) : GUIHiddenList :=
  { selected := false, sel_fore := ForeRESET, sel_back := BackGREEN,
    unsel_fore := ForeRESET, unsel_back := BackRESET,
    count := .fin 0, aux_count := .fin 0,
    bounds := (.negInf, .posInf), aux_bounds := (.negInf, .posInf),
    wrap_bounds := true,
    items := items, wrap := wrap,
    max_width := max_width.getD ((items.map String.length).foldr max 0) }

/-- `GUIHiddenList.current`: `self.items[self.count % len(self.items)]`.
`none` models the Python exceptions outside the claims' scope (a non-`int`
`count`, or `% 0` on an empty `items`); for a finite `count` and non-empty
`items`, Python's `%` with a positive modulus agrees with `Int.emod`. -/
def GUIHiddenList.current (h : GUIHiddenList) : Option String :=
  match h.count with
  | .fin z =>
      if h.items.length = 0 then none
      else h.items.get? ((z % (h.items.length : Int)).toNat)
  | _ => none

/-- `GUIHiddenList.increase`: `if self.count == len(self.items) - 1: if
self.wrap: self.count += 1; else: self.count += 1` (overrides the bounded
`GUICounter.increase`). -/
def GUIHiddenList.increase (h : GUIHiddenList) : GUIHiddenList :=
  if h.count = .fin ((h.items.length : Int) - 1) then
    if h.wrap then { h with count := eincr h.count } else h
  else { h with count := eincr h.count }

/-- `GUIHiddenList.decrease`: `if self.count == 0: if self.wrap:
self.count -= 1; else: self.count -= 1`. -/
def GUIHiddenList.decrease (h : GUIHiddenList) : GUIHiddenList :=
  if h.count = .fin 0 then
    if h.wrap then { h with count := edecr h.count } else h
  else { h with count := edecr h.count }

/-- Apply a sequence of `increase()`/`decrease()` calls to a
`GUIHiddenList`. -/
def applyHiddenOps (ops : List CounterOp) (h : GUIHiddenList) : GUIHiddenList :=
  match ops with
  | [] => h
  | .inc :: rest => applyHiddenOps rest h.increase
  | .dec :: rest => applyHiddenOps rest h.decrease

/-- The `keys` dict restricted to single-byte keys. The literal entries are
those of the dict at the top of the source; the comprehension
`keys.update` with `range(32, 127)` overrides the range 32–126 with
identity mappings (the only overlap, the space byte, maps to the same
token either way). `none` models a `KeyError`. -/
def keysSingle (b : Nat) : Option String :=
  if 32 ≤ b ∧ b ≤ 126 then some (String.singleton (Char.ofNat b))
  else if b = 0x1c then some "^\\"
  else if b = 0x1b then some "esc"
  else if b = 0x1d then some "^]"
  else if b = 0x0d then some "enter"
  else if b = 0x0a then some "^enter"
  else if b = 0x09 then some "tab"
  else if b = 0x95 then some "^tab"
  else if b = 0x08 then some "back"
  else if b = 0x7f then some "^back"
  else none

/-- The `keys` dict restricted to two-byte keys (first byte `0xe0` or
`0x00`). `none` models a `KeyError`. -/
def keysPair (b1 b2 : Nat) : Option String :=
  if b1 = 0xe0 then
    if b2 = 0x53 then some "del"
    else if b2 = 0x93 then some "^del"
    else if b2 = 0x47 then some "home"
    else if b2 = 0x77 then some "^home"
    else if b2 = 0x4f then some "end"
    else if b2 = 0x75 then some "^end"
    else if b2 = 0x49 then some "pgup"
    else if b2 = 0x86 then some "^pgup"
    else if b2 = 0x51 then some "pgdn"
    else if b2 = 0x48 then some "up"
    else if b2 = 0x50 then some "down"
    else if b2 = 0x4b then some "left"
    else if b2 = 0x4d then some "right"
    else none
  else if b1 = 0x00 then
    if b2 = 0x52 then some "num0"
    else if b2 = 0x4f then some "num1"
    else if b2 = 0x50 then some "num2"
    else if b2 = 0x51 then some "num3"
    else if b2 = 0x4b then some "num4"
    else if b2 = 0x4d then some "num6"
    else if b2 = 0x47 then some "num7"
    else if b2 = 0x48 then some "num8"
    else if b2 = 0x49 then some "num9"
    else if b2 = 0x53 then some "num."
    else if b2 = 0x92 then some "^num0"
    else if b2 = 0x75 then some "^num1"
    else if b2 = 0x91 then some "^num2"
    else if b2 = 0x76 then some "^num3"
    else if b2 = 0x73 then some "^num4"
    else if b2 = 0x74 then some "^num6"
    else if b2 = 0x77 then some "^num7"
    else if b2 = 0x8d then some "^num8"
    else if b2 = 0x84 then some "^num9"
    else if b2 = 0x93 then some "^num."
    else if b2 = 0x95 then some "^num/"
    else none
  else none

/-- The state of an `ElementList` of `GUICounter` widgets: the elements,
the `wrap` flag, `_current_index`, and whether the constructor's
`exclusive=True` made every element's `exclusive_to` the whole list. -/
structure ElementList where
  elems : List GUICounter
  wrap : Bool
  current_index : Int
  exclusive : Bool
deriving DecidableEq, Repr

/-- Resolve a Python list index (negative indices count from the end) to a
position; `none` models an `IndexError`. -/
def posOfIndex (n : Nat) (i : Int) : Option Nat :=
  if 0 ≤ i then
    if i.toNat < n then some i.toNat else none
  else
    if (-i).toNat ≤ n then some (n - (-i).toNat) else none

/-- Replace the element at position `p` by `f` of it (identity when out of
range). -/
def listModify (f : α → α) : Nat → List α → List α
  | _, [] => []
  | 0, a :: as => f a :: as
  | p + 1, a :: as => a :: listModify f p as

/-- `GUIElement.select` on the current element of an `ElementList`: every
selected member of its `exclusive_to` other than itself is deselected,
then it is selected. With `exclusive=True` the `exclusive_to` of each
element is the whole list; otherwise it is the empty default, so only the
element itself changes. Out-of-range `_current_index` (a Python
`IndexError`) leaves the state unchanged here — unreachable in the
modeled scenarios. -/
def listSelect (st : ElementList) : ElementList :=
  match posOfIndex st.elems.length st.current_index with
  | none => st
  | some p =>
      { st with
        elems := st.elems.mapIdx fun j e =>
          if j = p then { e with selected := true }
          else if st.exclusive ∧ e.selected then { e with selected := false }
          else e }

/-- `ElementList.move_left`: `self._current_index = (self._current_index
- 1) % len(self)`, then `self.current.select()`. -/
def ElementList.move_left (st : ElementList) : ElementList :=
  listSelect
    { st with current_index := (st.current_index - 1) % (st.elems.length : Int) }

/-- `ElementList.move_right`: `self._current_index = (self._current_index
+ 1) % len(self)`, then `self.current.select()`. -/
def ElementList.move_right (st : ElementList) : ElementList :=
  listSelect
    { st with current_index := (st.current_index + 1) % (st.elems.length : Int) }

/-- `self.current.increase()` inside `key_presses`. -/
def currentIncrease (st : ElementList) : ElementList :=
  match posOfIndex st.elems.length st.current_index with
  | none => st
  | some p => { st with elems := listModify GUICounter.increase p st.elems }

/-- `self.current.decrease()` inside `key_presses`. -/
def currentDecrease (st : ElementList) : ElementList :=
  match posOfIndex st.elems.length st.current_index with
  | none => st
  | some p => { st with elems := listModify GUICounter.decrease p st.elems }

/-- The keyword options of `ElementList.key_presses`. -/
structure Cfg where
  auto_left_right : Bool
  auto_up_down : Bool
  auto_esc : Bool
  auto_enter : Bool
  clean : Bool
deriving DecidableEq, Repr

/-- How a run of the `key_presses` generator ends.
`enterBreak`: the `break` on an `'enter'` token under `auto_enter` — the
only way control reaches the code after the `while` loop.
`inputExhausted`: the modeled byte stream ran dry at a `getch()` call (in
the source, `getch` would block forever there).
`decodeErr`: a `KeyError` from the `keys` lookup, propagating out of the
generator.
`procExit`: the `exit()` call on `'esc'` under `auto_esc`. -/
inductive RunEnd where
  | enterBreak : RunEnd
  | inputExhausted : RunEnd
  | decodeErr : RunEnd
  | procExit : RunEnd
deriving DecidableEq, Repr

/-- Observable cleanup effects of `clear_all`: each element's `clear()`
(recorded by position) and the list's own `cleanup()` hook. -/
inductive Event where
  | cleared (i : Nat) : Event
  | listCleanup : Event
deriving DecidableEq, Repr

/-- The trace `ElementList.clear_all` leaves: `clear()` on every element in
order, then `self.cleanup()`. -/
def clearAllEvents (st : ElementList) : List Event :=
  (List.range st.elems.length).map Event.cleared ++ [Event.listCleanup]

/-- The auto-handling applied to a decoded token before the
`esc`/`enter`/`yield` decisions: `auto_left_right` moves on
`'left'`/`'a'`/`'right'`/`'d'`, then `auto_up_down` adjusts the current
element on `'up'`/`'w'`/`'down'`/`'s'`. -/
def autoApply (cfg : Cfg) (st : ElementList) (t : String) : ElementList :=
  let st1 :=
    if cfg.auto_left_right then
      if t = "left" ∨ t = "a" then st.move_left
      else if t = "right" ∨ t = "d" then st.move_right
      else st
    else st
  if cfg.auto_up_down then
    if t = "up" ∨ t = "w" then currentIncrease st1
    else if t = "down" ∨ t = "s" then currentDecrease st1
    else st1
  else st1

/-- The body of the `while True` loop of `key_presses`, run to completion
on a finite byte stream: per iteration, read one byte (two when the first
is `0x00` or `0xe0`), look the sequence up in `keys`, apply the auto
options, then either `exit()` on `'esc'`, `break` on `'enter'`, or yield
the token and continue. Returns the yielded tokens in order, the final
state, and how the run ended. -/
def keyPressesGo (cfg : Cfg) (st : ElementList) :
    List Nat → List String × ElementList × RunEnd
  | [] => ([], st, .inputExhausted)
  | b :: rest =>
    if b = 0x00 ∨ b = 0xe0 then
      match rest with
      | [] => ([], st, .inputExhausted)
      | b2 :: rest2 =>
        match keysPair b b2 with
        | none => ([], st, .decodeErr)
        | some t =>
          let st2 := autoApply cfg st t
          if cfg.auto_esc ∧ t = "esc" then ([], st2, .procExit)
          else if cfg.auto_enter ∧ t = "enter" then ([], st2, .enterBreak)
          else
            let r := keyPressesGo cfg st2 rest2
            (t :: r.1, r.2)
    else
      match keysSingle b with
      | none => ([], st, .decodeErr)
      | some t =>
        let st2 := autoApply cfg st t
        if cfg.auto_esc ∧ t = "esc" then ([], st2, .procExit)
        else if cfg.auto_enter ∧ t = "enter" then ([], st2, .enterBreak)
        else
          let r := keyPressesGo cfg st2 rest
          (t :: r.1, r.2)

/-- The result of running the `key_presses` generator to its end. -/
structure RunResult where
  tokens : List String
  state : ElementList
  ended : RunEnd
  events : List Event
deriving DecidableEq, Repr

/-- `ElementList.key_presses`, consumed to the end of its sequence:
startup (`init()` is a no-op, `self.current.select()`, rendering), then
the decode loop. The statements after the loop — `if clean:
self.clear_all()` — execute only when the loop exits via the `break` on
`'enter'`; a `KeyError` propagates past them, `exit()` never reaches
them, and a dry stream leaves the generator blocked in `getch()`. -/
def key_presses (cfg : Cfg) (st : ElementList) (input : List Nat) : RunResult :=
  let st0 := listSelect st
  let r := keyPressesGo cfg st0 input
  { tokens := r.1, state := r.2.1, ended := r.2.2,
    events :=
      if cfg.clean ∧ r.2.2 = .enterBreak then clearAllEvents r.2.1 else [] }

/-- State of the generator when the consumer stops early: it has executed
through its `k`-th `yield` (with `k ≥ 1`) and is then closed.
`GeneratorExit` is raised at that suspended `yield`; `key_presses` has no
handler around the loop, so the exception propagates and the post-loop
`if clean: self.clear_all()` never runs. -/
def keyPressesAbandonGo (cfg : Cfg) (st : ElementList) (k : Nat) :
    List Nat → ElementList
  | [] => st
  | b :: rest =>
    if b = 0x00 ∨ b = 0xe0 then
      match rest with
      | [] => st
      | b2 :: rest2 =>
        match keysPair b b2 with
        | none => st
        | some t =>
          let st2 := autoApply cfg st t
          if (cfg.auto_esc ∧ t = "esc") ∨ (cfg.auto_enter ∧ t = "enter") then st2
          else if k ≤ 1 then st2
          else keyPressesAbandonGo cfg st2 (k - 1) rest2
    else
      match keysSingle b with
      | none => st
      | some t =>
        let st2 := autoApply cfg st t
        if (cfg.auto_esc ∧ t = "esc") ∨ (cfg.auto_enter ∧ t = "enter") then st2
        else if k ≤ 1 then st2
        else keyPressesAbandonGo cfg st2 (k - 1) rest

/-- `ElementList.key_presses` when the consumer abandons iteration after
pulling `k` tokens: for `k = 0` the generator body never starts; for
`k ≥ 1` it runs through the `k`-th `yield` and is closed there. On every
such path the cleanup block is skipped, so no clear events are emitted. -/
def keyPressesAbandon (cfg : Cfg) (st : ElementList) (input : List Nat)
    (k : Nat) : ElementList × List Event :=
  if k = 0 then (st, [])
  else (keyPressesAbandonGo cfg (listSelect st) k input, [])

/-- `GUIElement.select` on the member at position `i` of a group of
widgets that all share that group as their `exclusive_to` (the setup the
`ElementList` constructor with `exclusive=True` produces): the loop
deselects every other selected member, then `self.selected = True`. Other
members keep their remaining fields; a member that was already unselected
is untouched by the loop and stays unselected either way. -/
def selectInGroup : List GUIElement → Nat → List GUIElement
  | [], _ => []
  | e :: es, 0 =>
      { e with selected := true } ::
        es.map fun x => { x with selected := false }
  | e :: es, i + 1 => { e with selected := false } :: selectInGroup es i

/-- Invariant tying a `GUICounter` to finite bounds `lo ≤ count ≤ hi`. -/
def CounterInv (lo hi : Int) (c : GUICounter) : Prop :=
  c.bounds = (.fin lo, .fin hi) ∧ ∃ v, c.count = .fin v ∧ lo ≤ v ∧ v ≤ hi

theorem counterInv_increase {lo hi : Int} {c : GUICounter}
    (h : CounterInv lo hi c) : CounterInv lo hi c.increase := by
  obtain ⟨hb, v, hc, h1, h2⟩ := h
  unfold GUICounter.increase
  by_cases hv : v = hi
  · subst hv
    rw [if_neg (by simp [hc, hb])]
    by_cases hw : c.wrap_bounds
    · rw [if_pos hw]
      exact ⟨hb, lo, by simp [hb], le_refl lo, h1⟩
    · rw [if_neg hw]
      exact ⟨hb, v, hc, h1, h2⟩
  · rw [if_pos (by simp [hc, hb, hv])]
    refine ⟨hb, v + 1, by simp [hc, eincr], by omega, ?_⟩
    have : v < hi := lt_of_le_of_ne h2 hv
    omega

theorem counterInv_decrease {lo hi : Int} {c : GUICounter}
    (h : CounterInv lo hi c) : CounterInv lo hi c.decrease := by
  obtain ⟨hb, v, hc, h1, h2⟩ := h
  unfold GUICounter.decrease
  by_cases hv : v = lo
  · subst hv
    rw [if_neg (by simp [hc, hb])]
    by_cases hw : c.wrap_bounds
    · rw [if_pos hw]
      exact ⟨hb, hi, by simp [hb], h2, le_refl hi⟩
    · rw [if_neg hw]
      exact ⟨hb, v, hc, h1, h2⟩
  · rw [if_pos (by simp [hc, hb]; exact hv)]
    refine ⟨hb, v - 1, by simp [hc, edecr], ?_, by omega⟩
    have : lo < v := lt_of_le_of_ne h1 (Ne.symm hv)
    omega

theorem counterInv_ops {lo hi : Int} (ops : List CounterOp) {c : GUICounter}
    (h : CounterInv lo hi c) : CounterInv lo hi (applyCounterOps ops c) := by
  induction ops generalizing c with
  | nil => exact h
  | cons op rest ih =>
    cases op with
    | inc => exact ih (counterInv_increase h)
    | dec => exact ih (counterInv_decrease h)

/-- C1: a `GUICounter` whose `count` starts within finite bounds
`[lo, hi]` keeps `count` within `[lo, hi]` under every sequence of
`increase()`/`decrease()` calls; at `count = hi`, `increase()` wraps to
`lo` when `wrap_bounds` is true and leaves `hi` unchanged when it is
false, and `decrease()` behaves symmetrically at `lo`. -/
theorem guicounter_count_stays_in_bounds
    (c : GUICounter) (lo hi v : Int) (ops : List CounterOp)
    (hb : c.bounds = (.fin lo, .fin hi)) (hc : c.count = .fin v)
    (h1 : lo ≤ v) (h2 : v ≤ hi) :
    (∃ v', (applyCounterOps ops c).count = .fin v' ∧ lo ≤ v' ∧ v' ≤ hi)
    ∧ (v = hi → c.wrap_bounds = true → c.increase.count = .fin lo)
    ∧ (v = hi → c.wrap_bounds = false → c.increase.count = .fin hi)
    ∧ (v = lo → c.wrap_bounds = true → c.decrease.count = .fin hi)
    ∧ (v = lo → c.wrap_bounds = false → c.decrease.count = .fin lo) := by
  refine ⟨?_, ?_, ?_, ?_, ?_⟩
  · obtain ⟨_, v', hv⟩ := counterInv_ops ops ⟨hb, v, hc, h1, h2⟩
    exact ⟨v', hv⟩
  · intro hv hw
    subst hv
    unfold GUICounter.increase
    rw [if_neg (by simp [hc, hb]), if_pos hw]
    simp [hb]
  · intro hv hw
    subst hv
    unfold GUICounter.increase
    rw [if_neg (by simp [hc, hb]), if_neg (by simp [hw])]
    exact hc
  · intro hv hw
    subst hv
    unfold GUICounter.decrease
    rw [if_neg (by simp [hc, hb]), if_pos hw]
    simp [hb]
  · intro hv hw
    subst hv
    unfold GUICounter.decrease
    rw [if_neg (by simp [hc, hb]), if_neg (by simp [hw])]
    exact hc

/-- Witness for C1: a counter with bounds `[0, 5]` starting at 3, run
through three `increase()` calls. -/
theorem guicounter_count_stays_in_bounds_witness :
    (mkGUICounter "" "" "" "" false 3 0 (.fin 0, .fin 5) (.fin 0, .fin 5)
        true).bounds = (.fin 0, .fin 5) ∧
    (mkGUICounter "" "" "" "" false 3 0 (.fin 0, .fin 5) (.fin 0, .fin 5)
        true).count = .fin 3 ∧
    (0 : Int) ≤ 3 ∧ (3 : Int) ≤ 5 ∧
    (∃ v', (applyCounterOps [.inc, .inc, .inc]
        (mkGUICounter "" "" "" "" false 3 0 (.fin 0, .fin 5) (.fin 0, .fin 5)
          true)).count = .fin v' ∧ 0 ≤ v' ∧ v' ≤ 5) :=
  ⟨rfl, rfl, by decide, by decide,
    (guicounter_count_stays_in_bounds _ 0 5 3 [.inc, .inc, .inc] rfl rfl
      (by decide) (by decide)).1⟩

/-- C2: `aux_increase()` gates on the main `count` against
`aux_bounds[1]`: when they differ it bumps `aux_count`, leaving `count`
alone; when they agree and `wrap_bounds` holds it assigns `aux_bounds[0]`
into `count`, leaving `aux_count` alone; `aux_decrease()` is symmetric at
`aux_bounds[0]`. -/
theorem aux_increase_reads_main_count (c : GUICounter) :
    (c.count ≠ c.aux_bounds.2 →
      c.aux_increase.aux_count = eincr c.aux_count ∧
      c.aux_increase.count = c.count)
    ∧ (c.count = c.aux_bounds.2 → c.wrap_bounds = true →
      c.aux_increase.count = c.aux_bounds.1 ∧
      c.aux_increase.aux_count = c.aux_count)
    ∧ (c.count ≠ c.aux_bounds.1 →
      c.aux_decrease.aux_count = edecr c.aux_count ∧
      c.aux_decrease.count = c.count)
    ∧ (c.count = c.aux_bounds.1 → c.wrap_bounds = true →
      c.aux_decrease.count = c.aux_bounds.2 ∧
      c.aux_decrease.aux_count = c.aux_count) := by
  refine ⟨?_, ?_, ?_, ?_⟩
  · intro h
    unfold GUICounter.aux_increase
    rw [if_pos h]
    exact ⟨rfl, rfl⟩
  · intro h hw
    unfold GUICounter.aux_increase
    rw [if_neg (by simp [h]), if_pos hw]
    exact ⟨rfl, rfl⟩
  · intro h
    unfold GUICounter.aux_decrease
    rw [if_pos h]
    exact ⟨rfl, rfl⟩
  · intro h hw
    unfold GUICounter.aux_decrease
    rw [if_neg (by simp [h]), if_pos hw]
    exact ⟨rfl, rfl⟩

/-- Witness for C2: a counter with `count = 5` equal to the aux upper
bound (wrap assigns into `count`) and distinct from the aux lower bound
(`aux_decrease` bumps `aux_count` down). -/
theorem aux_increase_reads_main_count_witness :
    (mkGUICounter "" "" "" "" false 5 7 (.fin 0, .fin 9) (.fin 0, .fin 5)
        true).count =
      (mkGUICounter "" "" "" "" false 5 7 (.fin 0, .fin 9) (.fin 0, .fin 5)
        true).aux_bounds.2 ∧
    (mkGUICounter "" "" "" "" false 5 7 (.fin 0, .fin 9) (.fin 0, .fin 5)
        true).aux_increase.count = .fin 0 ∧
    (mkGUICounter "" "" "" "" false 5 7 (.fin 0, .fin 9) (.fin 0, .fin 5)
        true).aux_increase.aux_count = .fin 7 ∧
    (mkGUICounter "" "" "" "" false 5 7 (.fin 0, .fin 9) (.fin 0, .fin 5)
        true).aux_decrease.aux_count = .fin 6 :=
  ⟨rfl,
    ((aux_increase_reads_main_count _).2.1 rfl rfl).1,
    ((aux_increase_reads_main_count _).2.1 rfl rfl).2,
    by
      have h := ((aux_increase_reads_main_count
        (mkGUICounter "" "" "" "" false 5 7 (.fin 0, .fin 9) (.fin 0, .fin 5)
          true)).2.2.1 (by decide)).1
      simpa using h⟩

/-- C9: the style and `selected` arguments accepted by the `GUICounter`
and `GUIHiddenList` constructors are ignored: the widget always ends with
`sel_fore = Fore.RESET`, `sel_back = Back.GREEN`,
`unsel_fore = Fore.RESET`, `unsel_back = Back.RESET`, and
`selected = False`, whatever was passed. -/
theorem ctor_style_args_ignored (sf sb uf ub : String) (sel : Bool)
    (d da : Int) (b ab : EInt × EInt) (w : Bool) (items : List String)
    (sf2 sb2 uf2 ub2 : String) (sel2 : Bool) (mw : Option Nat) (wr : Bool) :
    (mkGUICounter sf sb uf ub sel d da b ab w).sel_fore = ForeRESET ∧
    (mkGUICounter sf sb uf ub sel d da b ab w).sel_back = BackGREEN ∧
    (mkGUICounter sf sb uf ub sel d da b ab w).unsel_fore = ForeRESET ∧
    (mkGUICounter sf sb uf ub sel d da b ab w).unsel_back = BackRESET ∧
    (mkGUICounter sf sb uf ub sel d da b ab w).selected = false ∧
    (mkGUIHiddenList items sf2 sb2 uf2 ub2 sel2 mw wr).sel_fore = ForeRESET ∧
    (mkGUIHiddenList items sf2 sb2 uf2 ub2 sel2 mw wr).sel_back = BackGREEN ∧
    (mkGUIHiddenList items sf2 sb2 uf2 ub2 sel2 mw wr).unsel_fore = ForeRESET ∧
    (mkGUIHiddenList items sf2 sb2 uf2 ub2 sel2 mw wr).unsel_back = BackRESET ∧
    (mkGUIHiddenList items sf2 sb2 uf2 ub2 sel2 mw wr).selected = false :=
  ⟨rfl, rfl, rfl, rfl, rfl, rfl, rfl, rfl, rfl, rfl⟩

/-- Counterexample to C4 as stated: for `items = ["a","b","c"]`,
`wrap = True`, starting at `count = 0`, three consecutive `decrease()`
calls end at `current == "a"`, not `"c"` (the count goes 0, -1, -2, -3
and `-3 % 3 = 0`). -/
theorem cyclic_three_decrease_not_c :
    (applyHiddenOps [.dec, .dec, .dec]
      (mkGUIHiddenList ["a", "b", "c"] "" "" "" "" false none true)).current
        = some "a" ∧
    (applyHiddenOps [.dec, .dec, .dec]
      (mkGUIHiddenList ["a", "b", "c"] "" "" "" "" false none true)).current
        ≠ some "c" := by
  constructor
  · rfl
  · decide

/-- C4 (amended): with `wrap = True` the first of the three consecutive
`decrease()` calls from index 0 reaches `current == "c"`; the three calls
pass through `"c"` and `"b"` and end at `current == "a"`. With
`wrap = False`, `decrease()` at index 0 leaves `current == "a"`. -/
theorem cyclic_decrease_wrap_and_hold :
    (applyHiddenOps [.dec]
      (mkGUIHiddenList ["a", "b", "c"] "" "" "" "" false none true)).current
        = some "c" ∧
    (applyHiddenOps [.dec, .dec]
      (mkGUIHiddenList ["a", "b", "c"] "" "" "" "" false none true)).current
        = some "b" ∧
    (applyHiddenOps [.dec, .dec, .dec]
      (mkGUIHiddenList ["a", "b", "c"] "" "" "" "" false none true)).current
        = some "a" ∧
    (applyHiddenOps [.dec]
      (mkGUIHiddenList ["a", "b", "c"] "" "" "" "" false none false)).current
        = some "a" := by
  refine ⟨rfl, rfl, rfl, rfl⟩

theorem countP_selected_map_false (es : List GUIElement) :
    (es.map fun x => { x with selected := false }).countP
      (fun e => e.selected) = 0 := by
  induction es with
  | nil => rfl
  | cons a as ih => simp [List.countP_cons, ih]

/-- C5: in a group of widgets sharing one exclusive group, any `select()`
leaves at most one member selected; with three widgets and the second
initially selected, selecting the first yields selection flags
`[true, false, false]`. -/
theorem select_leaves_at_most_one_selected (group : List GUIElement) (i : Nat) :
    (selectInGroup group i).countP (fun e => e.selected) ≤ 1 ∧
    ((selectInGroup
        [mkGUIElement "f" "g" "h" "j" false,
         mkGUIElement "f" "g" "h" "j" true,
         mkGUIElement "f" "g" "h" "j" false] 0).map (fun e => e.selected)
      = [true, false, false]) := by
  refine ⟨?_, by decide⟩
  induction group generalizing i with
  | nil => simp [selectInGroup]
  | cons e es ih =>
    cases i with
    | zero =>
      simp [selectInGroup, List.countP_cons, countP_selected_map_false]
    | succ j =>
      have := ih j
      simp [selectInGroup, List.countP_cons]
      omega

theorem listSelect_current_index (st : ElementList) :
    (listSelect st).current_index = st.current_index := by
  unfold listSelect
  cases posOfIndex st.elems.length st.current_index <;> rfl

/-- C6: `move_left()` sets `_current_index` to `(index - 1) mod n` and
`move_right()` to `(index + 1) mod n` for a non-empty list, wrapping
modulo the length; the `wrap` flag plays no part (the index is the same
under either flag value), and the resulting index is always in
`[0, n)`. -/
theorem move_left_right_wrap_mod (elems : List GUICounter) (w w' : Bool)
    (i : Int) (ex : Bool) (hn : 0 < elems.length) :
    (ElementList.move_left ⟨elems, w, i, ex⟩).current_index
        = (i - 1) % (elems.length : Int) ∧
    (ElementList.move_right ⟨elems, w, i, ex⟩).current_index
        = (i + 1) % (elems.length : Int) ∧
    (ElementList.move_left ⟨elems, w, i, ex⟩).current_index
        = (ElementList.move_left ⟨elems, w', i, ex⟩).current_index ∧
    (ElementList.move_right ⟨elems, w, i, ex⟩).current_index
        = (ElementList.move_right ⟨elems, w', i, ex⟩).current_index ∧
    0 ≤ (ElementList.move_left ⟨elems, w, i, ex⟩).current_index ∧
    (ElementList.move_left ⟨elems, w, i, ex⟩).current_index
        < (elems.length : Int) := by
  have hpos : (0 : Int) < (elems.length : Int) := by exact_mod_cast hn
  have hne : (elems.length : Int) ≠ 0 := ne_of_gt hpos
  have hl : (ElementList.move_left ⟨elems, w, i, ex⟩).current_index
      = (i - 1) % (elems.length : Int) := by
    unfold ElementList.move_left
    rw [listSelect_current_index]
  have hr : (ElementList.move_right ⟨elems, w, i, ex⟩).current_index
      = (i + 1) % (elems.length : Int) := by
    unfold ElementList.move_right
    rw [listSelect_current_index]
  have hl' : (ElementList.move_left ⟨elems, w', i, ex⟩).current_index
      = (i - 1) % (elems.length : Int) := by
    unfold ElementList.move_left
    rw [listSelect_current_index]
  have hr' : (ElementList.move_right ⟨elems, w', i, ex⟩).current_index
      = (i + 1) % (elems.length : Int) := by
    unfold ElementList.move_right
    rw [listSelect_current_index]
  refine ⟨hl, hr, hl.trans hl'.symm, hr.trans hr'.symm, ?_, ?_⟩
  · rw [hl]
    exact Int.emod_nonneg _ hne
  · rw [hl]
    exact Int.emod_lt_of_pos _ hpos

/-- Witness for C6: a list of four counters at index 0; `move_left()`
yields index 3. -/
theorem move_left_right_wrap_mod_witness :
    (0 : Nat) <
      [mkGUICounter "" "" "" "" false 0 0 (.negInf, .posInf)
          (.negInf, .posInf) true,
        mkGUICounter "" "" "" "" false 0 0 (.negInf, .posInf)
          (.negInf, .posInf) true,
        mkGUICounter "" "" "" "" false 0 0 (.negInf, .posInf)
          (.negInf, .posInf) true,
        mkGUICounter "" "" "" "" false 0 0 (.negInf, .posInf)
          (.negInf, .posInf) true].length ∧
    (ElementList.move_left
        ⟨[mkGUICounter "" "" "" "" false 0 0 (.negInf, .posInf)
            (.negInf, .posInf) true,
          mkGUICounter "" "" "" "" false 0 0 (.negInf, .posInf)
            (.negInf, .posInf) true,
          mkGUICounter "" "" "" "" false 0 0 (.negInf, .posInf)
            (.negInf, .posInf) true,
          mkGUICounter "" "" "" "" false 0 0 (.negInf, .posInf)
            (.negInf, .posInf) true], true, 0, false⟩).current_index = 3 := by
  refine ⟨by decide, ?_⟩
  have h := (move_left_right_wrap_mod
    [mkGUICounter "" "" "" "" false 0 0 (.negInf, .posInf)
        (.negInf, .posInf) true,
      mkGUICounter "" "" "" "" false 0 0 (.negInf, .posInf)
        (.negInf, .posInf) true,
      mkGUICounter "" "" "" "" false 0 0 (.negInf, .posInf)
        (.negInf, .posInf) true,
      mkGUICounter "" "" "" "" false 0 0 (.negInf, .posInf)
        (.negInf, .posInf) true] true true 0 false (by decide)).1
  rw [h]
  decide

/-- C8: a single byte in the printable range 32–126 (never an `0x00` or
`0xe0` prefix) decodes to the token equal to that character itself, both
in the `keys` table and through the decode step of `key_presses`. -/
theorem printable_byte_decodes_to_itself (b : Nat) (st : ElementList)
    (h1 : 32 ≤ b) (h2 : b ≤ 126) :
    keysSingle b = some (String.singleton (Char.ofNat b)) ∧
    (key_presses ⟨false, false, false, false, false⟩ st [b]).tokens
      = [String.singleton (Char.ofNat b)] := by
  have hk : keysSingle b = some (String.singleton (Char.ofNat b)) := by
    unfold keysSingle
    rw [if_pos ⟨h1, h2⟩]
  refine ⟨hk, ?_⟩
  have hb0 : ¬(b = 0x00 ∨ b = 0xe0) := by omega
  simp [key_presses, keyPressesGo, hb0, hk, autoApply]

/-- Witness for C8: the byte 65 decodes to the token "A". -/
theorem printable_byte_decodes_to_itself_witness :
    (32 : Nat) ≤ 65 ∧ (65 : Nat) ≤ 126 ∧
    keysSingle 65 = some "A" ∧
    (key_presses ⟨false, false, false, false, false⟩
        ⟨[], true, 0, false⟩ [65]).tokens = ["A"] := by
  have h := printable_byte_decodes_to_itself 65 ⟨[], true, 0, false⟩
    (by decide) (by decide)
  exact ⟨by decide, by decide, h.1, h.2⟩

theorem hidden_increase_fields (h : GUIHiddenList) :
    h.increase.items = h.items ∧ h.increase.wrap = h.wrap ∧
    (∀ v, h.count = .fin v → ∃ v', h.increase.count = .fin v') := by
  unfold GUIHiddenList.increase
  split
  · split
    · exact ⟨rfl, rfl, fun v hv => ⟨v + 1, by simp [hv, eincr]⟩⟩
    · exact ⟨rfl, rfl, fun v hv => ⟨v, hv⟩⟩
  · exact ⟨rfl, rfl, fun v hv => ⟨v + 1, by simp [hv, eincr]⟩⟩

theorem hidden_decrease_fields (h : GUIHiddenList) :
    h.decrease.items = h.items ∧ h.decrease.wrap = h.wrap ∧
    (∀ v, h.count = .fin v → ∃ v', h.decrease.count = .fin v') := by
  unfold GUIHiddenList.decrease
  split
  · split
    · exact ⟨rfl, rfl, fun v hv => ⟨v - 1, by simp [hv, edecr]⟩⟩
    · exact ⟨rfl, rfl, fun v hv => ⟨v, hv⟩⟩
  · exact ⟨rfl, rfl, fun v hv => ⟨v - 1, by simp [hv, edecr]⟩⟩

theorem hidden_ops_fields (ops : List CounterOp) (h : GUIHiddenList) :
    (applyHiddenOps ops h).items = h.items ∧
    (applyHiddenOps ops h).wrap = h.wrap ∧
    (∀ v, h.count = .fin v →
      ∃ v', (applyHiddenOps ops h).count = .fin v') := by
  induction ops generalizing h with
  | nil => exact ⟨rfl, rfl, fun v hv => ⟨v, hv⟩⟩
  | cons op rest ih =>
    cases op with
    | inc =>
      obtain ⟨hi1, hi2, hi3⟩ := hidden_increase_fields h
      obtain ⟨g1, g2, g3⟩ := ih h.increase
      refine ⟨g1.trans hi1, g2.trans hi2, fun v hv => ?_⟩
      obtain ⟨v', hv'⟩ := hi3 v hv
      exact g3 v' hv'
    | dec =>
      obtain ⟨hi1, hi2, hi3⟩ := hidden_decrease_fields h
      obtain ⟨g1, g2, g3⟩ := ih h.decrease
      refine ⟨g1.trans hi1, g2.trans hi2, fun v hv => ?_⟩
      obtain ⟨v', hv'⟩ := hi3 v hv
      exact g3 v' hv'

theorem hidden_current_of_fin (h : GUIHiddenList) (z : Int)
    (hc : h.count = .fin z) (hlen : h.items.length ≠ 0) :
    h.current = h.items.get? ((z % (h.items.length : Int)).toNat) := by
  unfold GUIHiddenList.current
  rw [hc]
  simp [hlen]

theorem hidden_decrease_of_wrap (h : GUIHiddenList) (hw : h.wrap = true) :
    h.decrease = { h with count := edecr h.count } := by
  unfold GUIHiddenList.decrease
  split
  · simp [hw]
  · rfl

theorem hidden_dec_replicate (h : GUIHiddenList) (hw : h.wrap = true)
    (v : Int) (hc : h.count = .fin v) (k : Nat) :
    (applyHiddenOps (List.replicate k .dec) h).count = .fin (v - k) := by
  induction k generalizing h v with
  | zero => simpa using hc
  | succ n ih =>
    rw [List.replicate_succ]
    have hd : h.decrease = { h with count := .fin (v - 1) } := by
      rw [hidden_decrease_of_wrap h hw, hc]
      rfl
    have step : applyHiddenOps (.dec :: List.replicate n .dec) h
        = applyHiddenOps (List.replicate n .dec) h.decrease := rfl
    rw [step, hd]
    have := ih { h with count := .fin (v - 1) } hw (v - 1) rfl
    rw [this]
    congr 1
    push_cast
    ring

/-- C10: with `wrap = True`, a `GUIHiddenList`'s `count` is not confined
to `[0, len(items))`: `increase()` at the last index sets `count` to
`len(items)`, and `k` `decrease()` calls from `count = 0` drive it to
`-k`; still, after every sequence of `increase()`/`decrease()` calls
`current` is defined (`some`) and equals `items[count % len(items)]`. -/
theorem hidden_count_escapes_but_current_total (h : GUIHiddenList)
    (hw : h.wrap = true) (hne : h.items ≠ []) :
    (h.count = .fin ((h.items.length : Int) - 1) →
      h.increase.count = .fin (h.items.length : Int)) ∧
    (h.count = .fin 0 → ∀ k : Nat,
      (applyHiddenOps (List.replicate k .dec) h).count = .fin (-(k : Int))) ∧
    (∀ ops : List CounterOp, ∀ v : Int, h.count = .fin v →
      ∃ v', (applyHiddenOps ops h).count = .fin v' ∧
        (applyHiddenOps ops h).current
          = h.items.get? ((v' % (h.items.length : Int)).toNat) ∧
        ((applyHiddenOps ops h).current).isSome = true) := by
  have hlenpos : 0 < h.items.length := List.length_pos.mpr hne
  refine ⟨?_, ?_, ?_⟩
  · intro hc
    unfold GUIHiddenList.increase
    rw [if_pos hc, if_pos hw, hc]
    simp [eincr]
  · intro hc k
    rw [hidden_dec_replicate h hw 0 hc k]
    congr 1
    omega
  · intro ops v hc
    obtain ⟨hitems, hwrap, hfin⟩ := hidden_ops_fields ops h
    obtain ⟨v', hv'⟩ := hfin v hc
    have hmod0 : 0 ≤ v' % (h.items.length : Int) :=
      Int.emod_nonneg _ (by exact_mod_cast Nat.pos_iff_ne_zero.mp hlenpos)
    have hmodlt : v' % (h.items.length : Int) < (h.items.length : Int) :=
      Int.emod_lt_of_pos _ (by exact_mod_cast hlenpos)
    have hnatlt : (v' % (h.items.length : Int)).toNat < h.items.length := by
      omega
    have hcur : (applyHiddenOps ops h).current
        = h.items.get? ((v' % (h.items.length : Int)).toNat) := by
      have := hidden_current_of_fin (applyHiddenOps ops h) v' hv'
        (by rw [hitems]; omega)
      rw [this, hitems]
    refine ⟨v', hv', hcur, ?_⟩
    rw [hcur, List.get?_eq_get hnatlt]
    rfl

/-- Witness for C10: the three-item list with `wrap = True` starting at
`count = 0`: `increase()` at the last index reaches `count = 3`, two
decreases from 0 reach `count = -2`, and after `[inc, dec, dec]` the
`current` is still defined and equals `items[(-1) % 3] = "c"`. -/
theorem hidden_count_escapes_witness :
    (mkGUIHiddenList ["a", "b", "c"] "" "" "" "" false none true).wrap
        = true ∧
    (mkGUIHiddenList ["a", "b", "c"] "" "" "" "" false none true).items
        ≠ [] ∧
    (applyHiddenOps (List.replicate 2 .dec)
      (mkGUIHiddenList ["a", "b", "c"] "" "" "" "" false none true)).count
        = .fin (-2) ∧
    (∃ v', (applyHiddenOps [.inc, .dec, .dec]
        (mkGUIHiddenList ["a", "b", "c"] "" "" "" "" false none true)).count
          = .fin v' ∧
      (applyHiddenOps [.inc, .dec, .dec]
        (mkGUIHiddenList ["a", "b", "c"] "" "" "" "" false none true)).current
          = ["a", "b", "c"].get? ((v' % (3 : Int)).toNat) ∧
      ((applyHiddenOps [.inc, .dec, .dec]
        (mkGUIHiddenList ["a", "b", "c"] "" "" "" "" false none
          true)).current).isSome = true) := by
  have h := hidden_count_escapes_but_current_total
    (mkGUIHiddenList ["a", "b", "c"] "" "" "" "" false none true)
    rfl (by decide)
  refine ⟨rfl, by decide, ?_, ?_⟩
  · have h2 := h.2.1 rfl 2
    simpa using h2
  · exact h.2.2 [.inc, .dec, .dec] 0 rfl

/-- Counterexample to C3 as stated: for a list of two default counters
with `auto_up_down` and `auto_enter` set, the byte stream for "up", "up",
"enter" makes the generator yield only `["up", "up"]` — the `break` on
`'enter'` comes before the `yield`, so the third token is consumed but
never yielded. -/
theorem key_presses_yields_two_not_three :
    (key_presses ⟨false, true, false, true, false⟩
      ⟨[mkGUICounter "" "" "" "" false 0 0 (.negInf, .posInf)
          (.negInf, .posInf) true,
        mkGUICounter "" "" "" "" false 0 0 (.negInf, .posInf)
          (.negInf, .posInf) true], true, 0, false⟩
      [0xe0, 0x48, 0xe0, 0x48, 0x0d]).tokens = ["up", "up"] ∧
    (key_presses ⟨false, true, false, true, false⟩
      ⟨[mkGUICounter "" "" "" "" false 0 0 (.negInf, .posInf)
          (.negInf, .posInf) true,
        mkGUICounter "" "" "" "" false 0 0 (.negInf, .posInf)
          (.negInf, .posInf) true], true, 0, false⟩
      [0xe0, 0x48, 0xe0, 0x48, 0x0d]).tokens ≠ ["up", "up", "enter"] :=
  ⟨by decide, by decide⟩

/-- C3 (amended): for a `WidgetList` of two default counters with
`auto_up_down = True` and `auto_enter = True`, feeding the raw bytes for
"up", "up", "enter" leaves the first counter's `count` incremented by
exactly 2 (the second untouched), and the generator terminates via the
`'enter'` break after yielding exactly the two tokens `["up", "up"]` in
order — the `'enter'` token is consumed to stop the loop but is not
yielded. -/
theorem key_presses_up_up_enter_run :
    (key_presses ⟨false, true, false, true, false⟩
      ⟨[mkGUICounter "" "" "" "" false 0 0 (.negInf, .posInf)
          (.negInf, .posInf) true,
        mkGUICounter "" "" "" "" false 0 0 (.negInf, .posInf)
          (.negInf, .posInf) true], true, 0, false⟩
      [0xe0, 0x48, 0xe0, 0x48, 0x0d]).tokens = ["up", "up"] ∧
    (key_presses ⟨false, true, false, true, false⟩
      ⟨[mkGUICounter "" "" "" "" false 0 0 (.negInf, .posInf)
          (.negInf, .posInf) true,
        mkGUICounter "" "" "" "" false 0 0 (.negInf, .posInf)
          (.negInf, .posInf) true], true, 0, false⟩
      [0xe0, 0x48, 0xe0, 0x48, 0x0d]).ended = .enterBreak ∧
    ((key_presses ⟨false, true, false, true, false⟩
      ⟨[mkGUICounter "" "" "" "" false 0 0 (.negInf, .posInf)
          (.negInf, .posInf) true,
        mkGUICounter "" "" "" "" false 0 0 (.negInf, .posInf)
          (.negInf, .posInf) true], true, 0, false⟩
      [0xe0, 0x48, 0xe0, 0x48, 0x0d]).state.elems.map (fun c => c.count))
        = [.fin 2, .fin 0] :=
  ⟨by decide, by decide, by decide⟩

/-- C7 (amended): with `clean = True` the cleanup block — `clear()` on
every widget and the list's `cleanup()` hook — runs exactly when the
generator's loop ends via the `break` on `'enter'`; a consumer that
abandons iteration after any number of tokens triggers no cleanup, since
`GeneratorExit` propagates past the unguarded post-loop code. -/
theorem clean_runs_only_on_enter_break (cfg : Cfg) (st : ElementList)
    (input : List Nat) (k : Nat)
    (hclean : cfg.clean = true)
    (hend : (key_presses cfg st input).ended = .enterBreak) :
    (∀ i, i < (key_presses cfg st input).state.elems.length →
      Event.cleared i ∈ (key_presses cfg st input).events) ∧
    Event.listCleanup ∈ (key_presses cfg st input).events ∧
    (keyPressesAbandon cfg st input k).2 = [] := by
  have hend' : (keyPressesGo cfg (listSelect st) input).2.2 = .enterBreak :=
    hend
  have hev : (key_presses cfg st input).events
      = clearAllEvents (keyPressesGo cfg (listSelect st) input).2.1 := by
    simp [key_presses, hclean, hend']
  have hst : (key_presses cfg st input).state
      = (keyPressesGo cfg (listSelect st) input).2.1 := rfl
  refine ⟨?_, ?_, ?_⟩
  · intro i hi
    rw [hst] at hi
    rw [hev]
    unfold clearAllEvents
    rw [List.mem_append]
    exact Or.inl (List.mem_map.mpr ⟨i, List.mem_range.mpr hi, rfl⟩)
  · rw [hev]
    unfold clearAllEvents
    rw [List.mem_append]
    exact Or.inr (List.mem_singleton.mpr rfl)
  · unfold keyPressesAbandon
    split
    · rfl
    · rfl

/-- Witness for C7 (amended): the two-counter scenario ending in the
`'enter'` break with `clean = True`: both widgets are cleared and the
list cleanup hook runs; abandoning after one token cleans nothing. -/
theorem clean_runs_only_on_enter_break_witness :
    (Cfg.mk false true false true true).clean = true ∧
    (key_presses ⟨false, true, false, true, true⟩
      ⟨[mkGUICounter "" "" "" "" false 0 0 (.negInf, .posInf)
          (.negInf, .posInf) true,
        mkGUICounter "" "" "" "" false 0 0 (.negInf, .posInf)
          (.negInf, .posInf) true], true, 0, false⟩
      [0xe0, 0x48, 0xe0, 0x48, 0x0d]).ended = .enterBreak ∧
    Event.listCleanup ∈ (key_presses ⟨false, true, false, true, true⟩
      ⟨[mkGUICounter "" "" "" "" false 0 0 (.negInf, .posInf)
          (.negInf, .posInf) true,
        mkGUICounter "" "" "" "" false 0 0 (.negInf, .posInf)
          (.negInf, .posInf) true], true, 0, false⟩
      [0xe0, 0x48, 0xe0, 0x48, 0x0d]).events ∧
    Event.cleared 0 ∈ (key_presses ⟨false, true, false, true, true⟩
      ⟨[mkGUICounter "" "" "" "" false 0 0 (.negInf, .posInf)
          (.negInf, .posInf) true,
        mkGUICounter "" "" "" "" false 0 0 (.negInf, .posInf)
          (.negInf, .posInf) true], true, 0, false⟩
      [0xe0, 0x48, 0xe0, 0x48, 0x0d]).events :=
  ⟨rfl, by decide,
    (clean_runs_only_on_enter_break ⟨false, true, false, true, true⟩
      ⟨[mkGUICounter "" "" "" "" false 0 0 (.negInf, .posInf)
          (.negInf, .posInf) true,
        mkGUICounter "" "" "" "" false 0 0 (.negInf, .posInf)
          (.negInf, .posInf) true], true, 0, false⟩
      [0xe0, 0x48, 0xe0, 0x48, 0x0d] 1 rfl (by decide)).2.1,
    (clean_runs_only_on_enter_break ⟨false, true, false, true, true⟩
      ⟨[mkGUICounter "" "" "" "" false 0 0 (.negInf, .posInf)
          (.negInf, .posInf) true,
        mkGUICounter "" "" "" "" false 0 0 (.negInf, .posInf)
          (.negInf, .posInf) true], true, 0, false⟩
      [0xe0, 0x48, 0xe0, 0x48, 0x0d] 1 rfl (by decide)).1 0 (by decide)⟩

/-- Counterexample to C7 as stated: in the same scenario with
`clean = True`, a consumer that stops after pulling one token (the first
"up" — the counter did reach 1, so the generator genuinely ran) gets no
cleanup at all: no widget is cleared and the list `cleanup()` hook never
runs. -/
theorem abandoned_iteration_cleans_nothing :
    ((keyPressesAbandon ⟨false, true, false, true, true⟩
      ⟨[mkGUICounter "" "" "" "" false 0 0 (.negInf, .posInf)
          (.negInf, .posInf) true,
        mkGUICounter "" "" "" "" false 0 0 (.negInf, .posInf)
          (.negInf, .posInf) true], true, 0, false⟩
      [0xe0, 0x48, 0xe0, 0x48, 0x0d] 1).1.elems.map (fun c => c.count))
        = [.fin 1, .fin 0] ∧
    (keyPressesAbandon ⟨false, true, false, true, true⟩
      ⟨[mkGUICounter "" "" "" "" false 0 0 (.negInf, .posInf)
          (.negInf, .posInf) true,
        mkGUICounter "" "" "" "" false 0 0 (.negInf, .posInf)
          (.negInf, .posInf) true], true, 0, false⟩
      [0xe0, 0x48, 0xe0, 0x48, 0x0d] 1).2 = [] ∧
    ¬ (Event.cleared 0 ∈ (keyPressesAbandon ⟨false, true, false, true, true⟩
      ⟨[mkGUICounter "" "" "" "" false 0 0 (.negInf, .posInf)
          (.negInf, .posInf) true,
        mkGUICounter "" "" "" "" false 0 0 (.negInf, .posInf)
          (.negInf, .posInf) true], true, 0, false⟩
      [0xe0, 0x48, 0xe0, 0x48, 0x0d] 1).2) ∧
    ¬ (Event.listCleanup ∈ (keyPressesAbandon ⟨false, true, false, true, true⟩
      ⟨[mkGUICounter "" "" "" "" false 0 0 (.negInf, .posInf)
          (.negInf, .posInf) true,
        mkGUICounter "" "" "" "" false 0 0 (.negInf, .posInf)
          (.negInf, .posInf) true], true, 0, false⟩
      [0xe0, 0x48, 0xe0, 0x48, 0x0d] 1).2) :=
  ⟨by decide, by decide, by decide, by decide⟩
